import Mathlib

/-!
Verification of the Back-Pain Diagnosis Assistant engine
(src/back_pain_streamlit.py), shallowly embedded in Lean 4.

Sets of symptom identifiers and diagnosis keys are modelled as
`Finset String` (Python `set[str]`).  The knowledge base `kb` is an
association list, preserving the Python dict's insertion order.
Python iterates over a `set` in an unspecified order; wherever the
source iterates a set (the scoring fallback, the candidate list), the
embedding fixes the canonical sorted enumeration — the results proved
here (selection of a lexicographic priority-queue minimum, membership,
cardinalities, termination) do not depend on the enumeration order.
-/

namespace BackPain

/-- The `Diagnosis` dataclass of the source (fields in source order:
name, required_symptoms, optional_symptoms, red_flags, suggested_tests,
suggested_treatments). -/
structure Diagnosis where
  name : String
  required_symptoms : Finset String
  optional_symptoms : Finset String
  red_flags : Finset String
  suggested_tests : Finset String
  suggested_treatments : Finset String
deriving DecidableEq

/-- kb["muscular_strain"] from the source. -/
def muscular_strain : Diagnosis :=
  ⟨"Muscular Strain",
   {"localized_back_pain"},
   {"pain_with_movement", "muscle_tightness", "improves_with_rest", "stiffness_morning"},
   ∅,
   {"Physical Examination"},
   {"Rest", "Physiotherapy", "NSAIDs"}⟩

/-- kb["disc_herniation"] from the source. -/
def disc_herniation : Diagnosis :=
  ⟨"Disc Herniation",
   {"radiating_leg_pain", "pain_shoots_when_cough_or_sneeze", "sharp_burning_back_or_leg_pain"},
   {"numbness", "tingling", "leg_weakness", "pain_in_buttocks_or_thigh", "pain_in_foot",
    "pain_when_lifting_or_twisting", "pain_in_arm_or_shoulder"},
   {"bladder_dysfunction", "saddle_anesthesia", "progressive_leg_weakness"},
   {"MRI", "CT Scan", "Physical Examination"},
   {"Physical Therapy", "Pain Management", "Surgery if severe"}⟩

/-- kb["sciatica"] from the source. -/
def sciatica : Diagnosis :=
  ⟨"Sciatica / Radiculopathy",
   {"radiating_leg_pain", "pain_shoots_when_cough_or_sneeze", "numbness", "tingling"},
   {"leg_weakness", "urinary_incontinence", "fecal_incontinence", "pain_on_lifting_leg",
    "leg_pain_below_knee"},
   {"urinary_incontinence", "fecal_incontinence"},
   {"MRI", "X-Ray", "Nerve Conduction Study"},
   {"NSAIDs", "Physical Therapy", "Epidural Steroid Injection", "Surgery if severe"}⟩

/-- The knowledge base `kb`, an association list in the source dict's
insertion order. -/
def kb : List (String × Diagnosis) :=
  [("muscular_strain", muscular_strain),
   ("disc_herniation", disc_herniation),
   ("sciatica", sciatica)]

/-- `kb.keys()` in insertion order. -/
def kb_keys : List String := kb.map Prod.fst

/-- Placeholder diagnosis for lookup of an absent key (the Python dict
would raise `KeyError`; the program only ever looks up keys of `kb`). -/
def defaultDiagnosis : Diagnosis := ⟨"", ∅, ∅, ∅, ∅, ∅⟩

/-- `kb[k]` — dictionary lookup. -/
def kbGet (k : String) : Diagnosis :=
  ((kb.find? (fun p => p.1 == k)).map Prod.snd).getD defaultDiagnosis

/-- `build_symptom_list`, as the set it builds: the union of
required and optional symptoms over all diagnoses of `kb`. -/
def symptomUniverse : Finset String :=
  kb.foldl (fun acc p => acc ∪ (p.2.required_symptoms ∪ p.2.optional_symptoms)) ∅

/-- Python's string comparison: lexicographic on the code points (the
character list underlying a Lean `String`). -/
def str_le (a b : String) : Prop := a.data ≤ b.data

instance : DecidableRel str_le :=
  fun a b => (inferInstance : Decidable (a.data ≤ b.data))

instance : IsTrans String str_le := ⟨fun _ _ _ hab hbc => le_trans hab hbc⟩

instance : IsAntisymm String str_le :=
  ⟨fun a b hab hba => by
    cases a
    cases b
    exact congrArg String.mk (le_antisymm hab hba)⟩

instance : IsTotal String str_le := ⟨fun a b => le_total a.data b.data⟩

/-- A duplicate-preserving sorted enumeration of a multiset of strings
(insertion sort under `str_le`). -/
def msorted (m : Multiset String) : List String :=
  Quot.liftOn m (fun l => l.insertionSort str_le)
    (fun l₁ l₂ h =>
      List.eq_of_perm_of_sorted
        ((List.perm_insertionSort str_le l₁).trans
          (h.trans (List.perm_insertionSort str_le l₂).symm))
        (List.sorted_insertionSort str_le l₁)
        (List.sorted_insertionSort str_le l₂))

/-- The canonical enumeration of a finite set of strings. -/
def sorted_list (s : Finset String) : List String := msorted s.val

/-- The `symptom_list` used by the session: a duplicate-free enumeration
of `symptomUniverse` (Python's `list(symptoms)`, order canonicalised). -/
def build_symptom_list : List String := sorted_list symptomUniverse

/-- The per-diagnosis score computed at finalization (lines 180-181):
`2 * len(required ∩ provided) + len(optional ∩ provided)`. -/
def score (d : Diagnosis) (provided : Finset String) : Int :=
  2 * ((d.required_symptoms ∩ provided).card : Int) +
    ((d.optional_symptoms ∩ provided).card : Int)

/-- The pruning pass (lines 128-130): drop a diagnosis when some
required symptom was asked and is not among the provided ones. -/
def prune (possible asked provided : Finset String) : Finset String :=
  possible.filter (fun k => ¬ ∃ r ∈ (kbGet k).required_symptoms, r ∈ asked ∧ r ∉ provided)

/-- `candidate_symptoms` (lines 133-135): union of required and optional
symptoms of the still-possible diagnoses. -/
def candidate_symptoms (possible : Finset String) : Finset String :=
  possible.biUnion (fun k => (kbGet k).required_symptoms ∪ (kbGet k).optional_symptoms)

/-- `candidates` (line 138): unasked symptoms of the symptom list that
occur in `candidate_symptoms`. -/
def candidates (possible asked : Finset String) : List String :=
  build_symptom_list.filter
    (fun s => decide (s ∉ asked) && decide (s ∈ candidate_symptoms possible))

/-- `count` inside the heuristic loop (line 144): the number of possible
diagnoses whose required or optional symptoms contain `s`. -/
def relevance (possible : Finset String) (s : String) : Nat :=
  (possible.filter
    (fun k => s ∈ (kbGet k).required_symptoms ∨ s ∈ (kbGet k).optional_symptoms)).card

/-- `heuristic[symptom] = -count` (line 145). -/
def heuristic (possible : Finset String) (s : String) : Int :=
  -(relevance possible s : Int)

/-- Comparison of two priority-queue entries `(key x, x)` and
`(key t, t)`: the one with the lexicographically smaller pair. -/
def pop_better (key : String → Int) (x t : String) : String :=
  if key x < key t ∨ (key x = key t ∧ str_le x t) then x else t

/-- `queue.get()` on the `PriorityQueue` filled with `(heuristic s, s)`
pairs (lines 148-153): the entry with the lexicographically least pair
is popped. -/
def queue_pop (key : String → Int) : List String → Option String
  | [] => none
  | x :: xs =>
    match queue_pop key xs with
    | none => some x
    | some t => some (pop_better key x t)

/-- The symptom the session asks next: the priority-queue pop over the
candidate list, `none` when no candidate remains. -/
def nextSymptom (possible asked : Finset String) : Option String :=
  queue_pop (heuristic possible) (candidates possible asked)

/-- `st.session_state.possible_diags or kb.keys()` (line 178): the keys
scored at finalization — the full key list when `possible` is empty. -/
def score_targets (possible : Finset String) : List String :=
  if possible = ∅ then kb_keys else sorted_list possible

/-- The `scores` mapping built at finalization (lines 177-182), as an
association list in iteration order. -/
def final_scores (possible provided : Finset String) : List (String × Int) :=
  (score_targets possible).map (fun k => (k, score (kbGet k) provided))

/-- `max(scores, key=lambda k: scores[k])` (line 184): the first
maximal entry of the list wins. -/
def pick_max : List (String × Int) → Option (String × Int)
  | [] => none
  | x :: xs => some (xs.foldl (fun best y => if best.2 < y.2 then y else best) x)

/-- `final_diag_key` (line 184), `none` exactly when `scores` is empty. -/
def final_diag_key (possible provided : Finset String) : Option String :=
  (pick_max (final_scores possible provided)).map Prod.fst

/-- `red_flags_detected = provided ∩ final_diag.red_flags` (line 191). -/
def red_flags_detected (provided : Finset String) (d : Diagnosis) : Finset String :=
  provided ∩ d.red_flags

/-- The interactive session state held in `st.session_state`:
`provided`, `asked`, `possible_diags`, `finished`. -/
structure SessionState where
  provided : Finset String
  asked : Finset String
  possible_diags : Finset String
  finished : Bool
deriving DecidableEq

/-- The state created by the session-state initialisation (lines 44-53):
everything empty, `possible_diags = set(kb.keys())`, not finished. -/
def initState : SessionState := ⟨∅, ∅, kb_keys.toFinset, false⟩

/-- One Streamlit script run up to the point where it either displays a
question or finishes (lines 123-169): prune `possible_diags`, then set
`finished` when no candidate symptom remains.  Consumes no user input. -/
def settle (s : SessionState) : SessionState :=
  if s.finished then s
  else
    match nextSymptom (prune s.possible_diags s.asked s.provided) s.asked with
    | none => ⟨s.provided, s.asked, prune s.possible_diags s.asked s.provided, true⟩
    | some _ => ⟨s.provided, s.asked, prune s.possible_diags s.asked s.provided, false⟩

/-- One user answer on the pending question of a settled state
(lines 161-167): a yes adds the asked symptom to `provided` and `asked`,
a no only to `asked`; the triggered rerun is the following `settle`. -/
def answer (s : SessionState) (a : Bool) : SessionState :=
  if s.finished then s
  else
    match nextSymptom s.possible_diags s.asked with
    | none => s
    | some q =>
        settle ⟨if a then insert q s.provided else s.provided,
                insert q s.asked, s.possible_diags, false⟩

/-- Feed a list of yes/no answers to a session state, one round each. -/
def run (s : SessionState) : List Bool → SessionState
  | [] => s
  | a :: rest => run (answer s a) rest

/-- A whole interactive session: the initial script run followed by the
given sequence of yes/no answers. -/
def session (answers : List Bool) : SessionState := run (settle initState) answers

/-- A state as left by a script run: when it is not finished, a
question is pending on its (already pruned) possible diagnoses. -/
def Ready (s : SessionState) : Prop :=
  s.finished = false → (nextSymptom s.possible_diags s.asked).isSome = true

/-- The symptom set of Scenario B of the specification. -/
def scenarioB : Finset String :=
  {"radiating_leg_pain", "pain_shoots_when_cough_or_sneeze", "numbness", "tingling",
   "urinary_incontinence"}

/-! ### Helper lemmas -/

lemma pop_better_eq_or (key : String → Int) (x t : String) :
    pop_better key x t = x ∨ pop_better key x t = t := by
  unfold pop_better
  split
  · left; rfl
  · right; rfl

lemma pop_better_le_left (key : String → Int) (x t : String) :
    key (pop_better key x t) ≤ key x := by
  unfold pop_better
  split
  · exact le_refl _
  · rename_i h
    push_neg at h
    exact h.1

lemma pop_better_le_right (key : String → Int) (x t : String) :
    key (pop_better key x t) ≤ key t := by
  unfold pop_better
  split
  · rename_i h
    rcases h with h | ⟨h, _⟩
    · exact le_of_lt h
    · exact le_of_eq h
  · exact le_refl _

lemma queue_pop_eq_none (key : String → Int) (l : List String) :
    queue_pop key l = none ↔ l = [] := by
  cases l with
  | nil => simp [queue_pop]
  | cons x xs =>
    cases h : queue_pop key xs with
    | none => simp [queue_pop, h]
    | some t => simp [queue_pop, h]

lemma queue_pop_mem (key : String → Int) :
    ∀ (l : List String) (s : String), queue_pop key l = some s → s ∈ l := by
  intro l
  induction l with
  | nil => intro s h; simp [queue_pop] at h
  | cons x xs ih =>
    intro s h
    cases hrec : queue_pop key xs with
    | none =>
      simp [queue_pop, hrec] at h
      simp [← h]
    | some t =>
      simp only [queue_pop, hrec] at h
      simp only [Option.some.injEq] at h
      rcases pop_better_eq_or key x t with he | he
      · rw [← h, he]
        exact List.mem_cons_self x xs
      · rw [← h, he]
        exact List.mem_cons_of_mem _ (ih t hrec)

lemma queue_pop_le (key : String → Int) :
    ∀ (l : List String) (s : String), queue_pop key l = some s →
      ∀ t ∈ l, key s ≤ key t := by
  intro l
  induction l with
  | nil => intro s h; simp [queue_pop] at h
  | cons x xs ih =>
    intro s h t ht
    cases hrec : queue_pop key xs with
    | none =>
      have hxs : xs = [] := (queue_pop_eq_none key xs).mp hrec
      subst hxs
      simp [queue_pop] at h
      simp at ht
      rw [← h, ht]
    | some u =>
      simp only [queue_pop, hrec, Option.some.injEq] at h
      rcases List.mem_cons.mp ht with rfl | htxs
      · rw [← h]
        exact pop_better_le_left key t u
      · calc key s = key (pop_better key x u) := by rw [h]
          _ ≤ key u := pop_better_le_right key x u
          _ ≤ key t := ih u hrec t htxs

lemma mem_msorted (m : Multiset String) (x : String) : x ∈ msorted m ↔ x ∈ m :=
  Quot.inductionOn m fun l => (List.perm_insertionSort str_le l).mem_iff

lemma mem_sorted_list (s : Finset String) (x : String) :
    x ∈ sorted_list s ↔ x ∈ s :=
  (mem_msorted s.val x).trans Finset.mem_def.symm

lemma mem_candidates (possible asked : Finset String) (s : String) :
    s ∈ candidates possible asked ↔
      s ∈ symptomUniverse ∧ s ∉ asked ∧ s ∈ candidate_symptoms possible := by
  simp [candidates, build_symptom_list, List.mem_filter, mem_sorted_list]

lemma kbGet_mem_or_default (k : String) :
    kbGet k = defaultDiagnosis ∨ ∃ p ∈ kb, kbGet k = p.2 := by
  unfold kbGet
  cases h : kb.find? (fun p => p.1 == k) with
  | none => left; simp
  | some p => right; exact ⟨p, List.mem_of_find?_eq_some h, by simp⟩

lemma diag_symptoms_subset :
    ∀ p ∈ kb, p.2.required_symptoms ∪ p.2.optional_symptoms ⊆ symptomUniverse := by
  decide

lemma candidate_symptoms_subset (possible : Finset String) :
    candidate_symptoms possible ⊆ symptomUniverse := by
  unfold candidate_symptoms
  apply Finset.biUnion_subset.mpr
  intro k _
  rcases kbGet_mem_or_default k with h | ⟨p, hp, h⟩
  · rw [h]
    simp [defaultDiagnosis]
  · rw [h]
    exact diag_symptoms_subset p hp

lemma mem_candidates_sdiff (possible asked : Finset String) (s : String) :
    s ∈ candidates possible asked ↔ s ∈ candidate_symptoms possible \ asked := by
  rw [mem_candidates, Finset.mem_sdiff]
  constructor
  · rintro ⟨_, h2, h3⟩; exact ⟨h3, h2⟩
  · rintro ⟨h1, h2⟩; exact ⟨candidate_symptoms_subset possible h1, h2, h1⟩

lemma score_targets_ne_nil (possible : Finset String) : score_targets possible ≠ [] := by
  unfold score_targets
  split
  · simp [kb_keys, kb]
  · rename_i hne
    intro h
    obtain ⟨x, hx⟩ := Finset.nonempty_iff_ne_empty.mpr hne
    have := (mem_sorted_list possible x).mpr hx
    rw [h] at this
    simp at this

lemma final_scores_ne_nil (possible provided : Finset String) :
    final_scores possible provided ≠ [] := by
  unfold final_scores
  simp [score_targets_ne_nil]

lemma map_fst_scores (provided : Finset String) (l : List String) :
    (l.map (fun k => (k, score (kbGet k) provided))).map Prod.fst = l := by
  induction l with
  | nil => rfl
  | cons x xs ih => simp [ih]

lemma final_key_isSome (possible provided : Finset String) :
    (final_diag_key possible provided).isSome = true := by
  unfold final_diag_key
  cases h : final_scores possible provided with
  | nil => exact absurd h (final_scores_ne_nil _ _)
  | cons x xs => simp [pick_max]

/-! ### Session-machine lemmas -/

lemma settle_provided (s : SessionState) : (settle s).provided = s.provided := by
  unfold settle
  split
  · rfl
  · split <;> rfl

lemma settle_asked (s : SessionState) : (settle s).asked = s.asked := by
  unfold settle
  split
  · rfl
  · split <;> rfl

lemma ready_settle (s : SessionState) : Ready (settle s) := by
  unfold Ready settle
  split
  · rename_i hfin
    intro h
    rw [h] at hfin
    exact absurd hfin (by simp)
  · split
    · intro h
      simp at h
    · rename_i q heq
      intro _
      simp [heq]

lemma answer_of_finished (s : SessionState) (a : Bool) (h : s.finished = true) :
    answer s a = s := by
  unfold answer
  simp [h]

lemma ready_answer (s : SessionState) (a : Bool) (hr : Ready s) : Ready (answer s a) := by
  unfold answer
  split
  · exact hr
  · split
    · exact hr
    · exact ready_settle _

lemma run_of_finished (l : List Bool) :
    ∀ s : SessionState, s.finished = true → (run s l).finished = true := by
  induction l with
  | nil => intro s h; exact h
  | cons a rest ih =>
    intro s h
    show (run (answer s a) rest).finished = true
    rw [answer_of_finished s a h]
    exact ih s h

lemma answer_measure (s : SessionState) (a : Bool) (hr : Ready s)
    (hf : s.finished = false) :
    (symptomUniverse \ (answer s a).asked).card <
      (symptomUniverse \ s.asked).card := by
  have hsome := hr hf
  cases heq : nextSymptom s.possible_diags s.asked with
  | none => rw [heq] at hsome; simp at hsome
  | some q =>
    have hq : q ∈ candidates s.possible_diags s.asked := queue_pop_mem _ _ _ heq
    obtain ⟨hU, hA, -⟩ := (mem_candidates _ _ _).mp hq
    have hans : (answer s a).asked = insert q s.asked := by
      unfold answer
      simp only [hf]
      simp [heq, settle_asked]
    rw [hans]
    have hsub : symptomUniverse \ insert q s.asked ⊆ symptomUniverse \ s.asked :=
      Finset.sdiff_subset_sdiff (Finset.Subset.refl _) (Finset.subset_insert _ _)
    apply Finset.card_lt_card
    rw [Finset.ssubset_iff_of_subset hsub]
    exact ⟨q, Finset.mem_sdiff.mpr ⟨hU, hA⟩, by simp⟩

lemma run_finishes (answers : List Bool) :
    ∀ s : SessionState, Ready s →
      (symptomUniverse \ s.asked).card ≤ answers.length →
      (run s answers).finished = true := by
  induction answers with
  | nil =>
    intro s hr hc
    show s.finished = true
    by_contra hf
    have hf' : s.finished = false := by
      cases h : s.finished
      · rfl
      · exact absurd h hf
    have hsome := hr hf'
    cases heq : nextSymptom s.possible_diags s.asked with
    | none => rw [heq] at hsome; simp at hsome
    | some q =>
      have hq : q ∈ candidates s.possible_diags s.asked := queue_pop_mem _ _ _ heq
      obtain ⟨hU, hA, -⟩ := (mem_candidates _ _ _).mp hq
      have hmem : q ∈ symptomUniverse \ s.asked := Finset.mem_sdiff.mpr ⟨hU, hA⟩
      have hpos : 0 < (symptomUniverse \ s.asked).card :=
        Finset.card_pos.mpr ⟨q, hmem⟩
      simp only [List.length_nil] at hc
      omega
  | cons a rest ih =>
    intro s hr hc
    show (run (answer s a) rest).finished = true
    cases hf : s.finished with
    | true =>
      rw [answer_of_finished s a hf]
      exact run_of_finished rest s hf
    | false =>
      have hlt := answer_measure s a hr hf
      apply ih (answer s a) (ready_answer s a hr)
      simp at hc
      omega

lemma provided_subset_asked_settle (s : SessionState) (h : s.provided ⊆ s.asked) :
    (settle s).provided ⊆ (settle s).asked := by
  rw [settle_provided, settle_asked]
  exact h

lemma provided_subset_asked_answer (s : SessionState) (a : Bool)
    (h : s.provided ⊆ s.asked) :
    (answer s a).provided ⊆ (answer s a).asked := by
  unfold answer
  split
  · exact h
  · split
    · exact h
    · rename_i q heq
      apply provided_subset_asked_settle
      cases a with
      | true => simpa using Finset.insert_subset_insert q h
      | false => simpa using h.trans (Finset.subset_insert q s.asked)

lemma run_provided_subset (l : List Bool) :
    ∀ s : SessionState, s.provided ⊆ s.asked →
      (run s l).provided ⊆ (run s l).asked := by
  induction l with
  | nil => intro s h; exact h
  | cons a rest ih =>
    intro s h
    exact ih _ (provided_subset_asked_answer s a h)

/-! ### The claims -/

/-- C1: for every diagnosis of the knowledge base and every provided
symptom set, the score computed at finalization equals
2·|required ∩ provided| + 1·|optional ∩ provided| and is a non-negative
integer. -/
theorem score_formula_nonneg (k : String) (d : Diagnosis) (_hkd : (k, d) ∈ kb)
    (P : Finset String) :
    score d P = 2 * ((d.required_symptoms ∩ P).card : Int) +
        1 * ((d.optional_symptoms ∩ P).card : Int) ∧ 0 ≤ score d P := by
  constructor
  · unfold score
    ring
  · unfold score
    positivity

theorem score_formula_nonneg_witness :
    ("muscular_strain", muscular_strain) ∈ kb ∧
      (score muscular_strain {"localized_back_pain"} =
          2 * ((muscular_strain.required_symptoms ∩ {"localized_back_pain"}).card : Int) +
            1 * ((muscular_strain.optional_symptoms ∩ {"localized_back_pain"}).card : Int) ∧
        0 ≤ score muscular_strain {"localized_back_pain"}) :=
  ⟨by decide, score_formula_nonneg "muscular_strain" muscular_strain (by decide) _⟩

/-- C2: pruning excludes a diagnosis of the possible set exactly when
some required symptom of it was asked and not provided; denial of an
optional symptom never causes exclusion. -/
theorem prune_excludes_iff (possible asked provided : Finset String) (k : String)
    (hk : k ∈ possible) :
    (k ∉ prune possible asked provided ↔
      ∃ r ∈ (kbGet k).required_symptoms, r ∈ asked ∧ r ∉ provided) := by
  unfold prune
  simp [Finset.mem_filter, hk]

theorem prune_excludes_iff_witness :
    ("muscular_strain" ∉ prune {"muscular_strain"} {"localized_back_pain"} ∅ ↔
      ∃ r ∈ (kbGet "muscular_strain").required_symptoms,
        r ∈ ({"localized_back_pain"} : Finset String) ∧ r ∉ (∅ : Finset String)) :=
  prune_excludes_iff {"muscular_strain"} {"localized_back_pain"} ∅ "muscular_strain"
    (by decide)

/-- C3 (counterexample): the claimed invariant
red_flags ⊆ required ∪ optional fails on the shipped knowledge base:
disc_herniation is an entry of kb whose red flags are not contained in
its required ∪ optional symptoms. -/
theorem red_flag_invariant_counterexample :
    ("disc_herniation", disc_herniation) ∈ kb ∧
      ¬ disc_herniation.red_flags ⊆
          disc_herniation.required_symptoms ∪ disc_herniation.optional_symptoms ∧
      "bladder_dysfunction" ∈ disc_herniation.red_flags ∧
      "bladder_dysfunction" ∉
        disc_herniation.required_symptoms ∪ disc_herniation.optional_symptoms := by
  decide

/-- C3 (amended): red_flags ⊆ required ∪ optional holds for
muscular_strain and sciatica, but fails for disc_herniation, all three
of whose red flags lie outside its required ∪ optional symptoms. -/
theorem red_flag_invariant_amended :
    muscular_strain.red_flags ⊆
        muscular_strain.required_symptoms ∪ muscular_strain.optional_symptoms ∧
      sciatica.red_flags ⊆
        sciatica.required_symptoms ∪ sciatica.optional_symptoms ∧
      disc_herniation.red_flags ∩
          (disc_herniation.required_symptoms ∪ disc_herniation.optional_symptoms) = ∅ := by
  decide

/-- C4: when possible_diagnoses is empty the finalization scores are
computed over every key of the full knowledge base; when it is
non-empty they are computed over exactly that set; either way a final
diagnosis key is produced. -/
theorem fallback_scoring (possible provided : Finset String) :
    (possible = ∅ → (final_scores possible provided).map Prod.fst = kb_keys) ∧
      (possible ≠ ∅ →
        ((final_scores possible provided).map Prod.fst).toFinset = possible) ∧
      (final_diag_key possible provided).isSome = true := by
  refine ⟨fun h => ?_, fun h => ?_, final_key_isSome _ _⟩
  · unfold final_scores score_targets
    rw [if_pos h]
    exact map_fst_scores provided kb_keys
  · unfold final_scores score_targets
    rw [if_neg h, map_fst_scores]
    apply Finset.ext
    intro x
    simp [List.mem_toFinset, mem_sorted_list]

theorem fallback_scoring_witness :
    ((∅ : Finset String) = ∅ → (final_scores ∅ ∅).map Prod.fst = kb_keys) ∧
      ((∅ : Finset String) ≠ ∅ → ((final_scores ∅ ∅).map Prod.fst).toFinset = ∅) ∧
      (final_diag_key ∅ ∅).isSome = true :=
  fallback_scoring ∅ ∅

/-- C5: whenever the candidate set (symptoms of still-possible
diagnoses not yet asked) is non-empty, the symptom selected next is a
member of that set of maximal relevance, where the relevance of s is
the number of possible diagnoses whose required or optional symptoms
contain s. -/
theorem next_question_max_relevance (possible asked : Finset String)
    (h : (candidate_symptoms possible \ asked).Nonempty) :
    ∃ s, nextSymptom possible asked = some s ∧
      s ∈ candidate_symptoms possible \ asked ∧
      ∀ t ∈ candidate_symptoms possible \ asked,
        relevance possible t ≤ relevance possible s := by
  obtain ⟨x, hx⟩ := h
  have hxl : x ∈ candidates possible asked := (mem_candidates_sdiff _ _ _).mpr hx
  have hne : candidates possible asked ≠ [] := by
    intro hnil
    rw [hnil] at hxl
    simp at hxl
  cases heq : nextSymptom possible asked with
  | none =>
    unfold nextSymptom at heq
    exact absurd ((queue_pop_eq_none _ _).mp heq) hne
  | some s =>
    refine ⟨s, rfl, ?_, ?_⟩
    · exact (mem_candidates_sdiff _ _ _).mp (queue_pop_mem _ _ _ heq)
    · intro t ht
      have htl := (mem_candidates_sdiff _ _ _).mpr ht
      have hle := queue_pop_le _ _ _ heq t htl
      unfold heuristic at hle
      have hrel : (relevance possible t : Int) ≤ (relevance possible s : Int) :=
        neg_le_neg_iff.mp hle
      exact_mod_cast hrel

theorem next_question_max_relevance_witness :
    (candidate_symptoms kb_keys.toFinset \ (∅ : Finset String)).Nonempty ∧
      (∃ s, nextSymptom kb_keys.toFinset ∅ = some s ∧
        s ∈ candidate_symptoms kb_keys.toFinset \ (∅ : Finset String) ∧
        ∀ t ∈ candidate_symptoms kb_keys.toFinset \ (∅ : Finset String),
          relevance kb_keys.toFinset t ≤ relevance kb_keys.toFinset s) :=
  ⟨by decide, next_question_max_relevance kb_keys.toFinset ∅ (by decide)⟩

/-- C6: at finalization the detected red flags are exactly
provided ∩ red_flags of the final diagnosis, hence empty whenever
provided is disjoint from those red flags. -/
theorem red_flag_detection (possible provided : Finset String) (k : String)
    (_h : final_diag_key possible provided = some k) :
    red_flags_detected provided (kbGet k) = provided ∩ (kbGet k).red_flags ∧
      (Disjoint provided (kbGet k).red_flags →
        red_flags_detected provided (kbGet k) = ∅) := by
  refine ⟨rfl, fun hd => ?_⟩
  unfold red_flags_detected
  exact Finset.disjoint_iff_inter_eq_empty.mp hd

theorem red_flag_detection_witness :
    red_flags_detected ∅ (kbGet "muscular_strain") =
        (∅ : Finset String) ∩ (kbGet "muscular_strain").red_flags ∧
      (Disjoint (∅ : Finset String) (kbGet "muscular_strain").red_flags →
        red_flags_detected ∅ (kbGet "muscular_strain") = ∅) :=
  red_flag_detection ∅ ∅ "muscular_strain" (by decide)

/-- C7: for every sequence of yes/no answers, the interactive session
is finished after at most as many rounds as there are symptoms in the
symptom universe. -/
theorem session_terminates (answers : List Bool)
    (h : symptomUniverse.card ≤ answers.length) :
    (session answers).finished = true := by
  apply run_finishes answers (settle initState) (ready_settle _)
  have hask : (settle initState).asked = ∅ := by
    rw [settle_asked]
    rfl
  rw [hask, Finset.sdiff_empty]
  exact h

theorem session_terminates_witness :
    symptomUniverse.card ≤ (List.replicate 19 false).length ∧
      (session (List.replicate 19 false)).finished = true :=
  ⟨by decide, session_terminates (List.replicate 19 false) (by decide)⟩

/-- C8: on Scenario B's provided symptoms with the full knowledge base
as candidate set, sciatica scores 2·4 + 1·1 = 9, is selected as the
final diagnosis (named Sciatica / Radiculopathy), and the red flag
urinary_incontinence is detected. -/
theorem scenarioB_correct :
    score sciatica scenarioB = 9 ∧
      final_diag_key kb_keys.toFinset scenarioB = some "sciatica" ∧
      (kbGet "sciatica").name = "Sciatica / Radiculopathy" ∧
      red_flags_detected scenarioB sciatica = {"urinary_incontinence"} ∧
      "urinary_incontinence" ∈ red_flags_detected scenarioB sciatica := by
  decide

/-- C9: starting from the empty session state, after any sequence of
yes/no answers the provided symptoms are a subset of the asked ones: a
yes adds the asked symptom to both sets, a no only to asked. -/
theorem session_provided_subset_asked (answers : List Bool) :
    (session answers).provided ⊆ (session answers).asked :=
  run_provided_subset answers (settle initState)
    (provided_subset_asked_settle initState (Finset.Subset.refl ∅))

theorem session_provided_subset_asked_witness :
    (session [true, false]).provided ⊆ (session [true, false]).asked :=
  session_provided_subset_asked [true, false]

/-- C10: the scores mapping built at finalization is never empty (the
fallback iterates the full, non-empty knowledge base), so a final
diagnosis key is always produced and the no-matching-diagnoses branch
is unreachable. -/
theorem final_scores_nonempty_total (possible provided : Finset String) :
    final_scores possible provided ≠ [] ∧
      (final_diag_key possible provided).isSome = true :=
  ⟨final_scores_ne_nil _ _, final_key_isSome _ _⟩

theorem final_scores_nonempty_total_witness :
    final_scores ∅ ∅ ≠ [] ∧ (final_diag_key ∅ ∅).isSome = true :=
  final_scores_nonempty_total ∅ ∅

end BackPain
